import Mathlib

/-!
Verification of the halfspace-filtering / reward-alignment pipeline of the
value-alignment-verification repository.  Arrays of floats are embedded as
lists of rationals (`List ℚ` for vectors, `List (List ℚ)` for 2-D arrays);
external collaborators (the MCMC posterior sampler, scipy Gaussian sampling,
the LP redundant-constraint remover, and TensorFlow gradient descent) are
modelled as oracle function parameters.
-/

section

attribute [local semireducible] Rat.mul Rat.add Rat.sub Rat.inv Rat.ofScientific

/-- Dot product of two row vectors (`np.dot` on 1-D arrays). -/
def dot (u v : List ℚ) : ℚ := (List.zipWith (· * ·) u v).sum

/-- Squared L2 norm of a row vector. -/
def sqnorm (u : List ℚ) : ℚ := dot u u

/-- Exact-arithmetic rendering of `scipy.spatial.distance.cosine(u, v) < precision`
for `precision ≤ 1`: the cosine distance `1 - u·v/(‖u‖‖v‖)` is below `p` iff
`u·v > (1-p)‖u‖‖v‖`, iff `u·v > 0` and `(u·v)² > (1-p)²‖u‖²‖v‖²` (the square
root of the norm product is external real arithmetic, so we compare squares). -/
def cosineDistLt (precision : ℚ) (u v : List ℚ) : Bool :=
  decide (0 < dot u v) &&
    decide ((1 - precision) * (1 - precision) * (sqnorm u * sqnorm v) < dot u v * dot u v)

/-- Embedding of `post.remove_duplicates`.  The duplicate test (cosine distance
below the precision threshold) is a parameter `isDup` so the embedding covers
the default `cosineDistLt (1/10000)` and any other threshold.  Faithful to the
source: the inner `for accepted_normal in out: if distance.cosine(...) < precision: break`
scans the accepted normals and `break`s on a near-duplicate, but the loop has no
`else` clause and the two `append` calls that follow it are unconditional, so
every normal is appended whether or not a near-duplicate was found.  The final
`np.array(out).reshape(-1, normals.shape[1])` is a no-op in the list model. -/
def remove_duplicates (isDup : List ℚ → List ℚ → Bool) (normals : List (List ℚ)) :
    List (List ℚ) × List ℕ :=
  let step := fun (acc : List (List ℚ) × List ℕ) (en : ℕ × List ℚ) =>
    let _dupFound := acc.1.any (fun accepted => isDup en.2 accepted)
    (acc.1 ++ [en.2], acc.2 ++ [en.1])
  normals.enum.foldl step ([], [])

/-- numpy fancy indexing `normals[indices]` for an integer index array. -/
def selectRows (normals : List (List ℚ)) (idx : List ℕ) : List (List ℚ) :=
  idx.map (fun i => normals.getD i [])

lemma remove_duplicates_foldl (isDup : List ℚ → List ℚ → Bool) :
    ∀ (l : List (List ℚ)) (k : ℕ) (out : List (List ℚ)) (idx : List ℕ),
      ((List.enumFrom k l).foldl
        (fun (acc : List (List ℚ) × List ℕ) (en : ℕ × List ℚ) =>
          let _dupFound := acc.1.any (fun accepted => isDup en.2 accepted)
          (acc.1 ++ [en.2], acc.2 ++ [en.1])) (out, idx))
      = (out ++ l, idx ++ List.range' k l.length) := by
  intro l
  induction l with
  | nil => intro k out idx; simp [List.range']
  | cons a l ih =>
    intro k out idx
    simp only [List.enumFrom, List.foldl_cons, List.range']
    rw [ih (k + 1) (out ++ [a]) (idx ++ [k])]
    simp

/-- The dead inner loop means `remove_duplicates` returns every normal, for
every duplicate predicate. -/
lemma remove_duplicates_eq (isDup : List ℚ → List ℚ → Bool) (normals : List (List ℚ)) :
    remove_duplicates isDup normals = (normals, List.range normals.length) := by
  unfold remove_duplicates
  rw [List.enum, remove_duplicates_foldl isDup normals 0 [] []]
  simp [List.range_eq_range']

lemma selectRows_range (normals : List (List ℚ)) :
    selectRows normals (List.range normals.length) = normals := by
  unfold selectRows
  induction normals with
  | nil => rfl
  | cons a l ih =>
    rw [List.length_cons, List.range_succ_eq_map, List.map_cons, List.map_map]
    have hcomp : ((fun i => (a :: l).getD i []) ∘ Nat.succ) = (fun i => l.getD i []) := by
      funext i
      rfl
    rw [hcomp, List.getD_cons_zero, ih]

/-- C1: the spec says `remove_duplicates` drops a candidate whose cosine
distance to a previously accepted normal is below the precision threshold, so
10 identical normals `[1,0,0,0]` should reduce to 1 survivor with index `[0]`.
The code disagrees: the cosine test on two copies of `[1,0,0,0]` is satisfied
(second conjunct), yet all 10 normals are kept with indices `[0..9]`, because
the inner-loop `break` has no `for`/`else` and the appends below it run
unconditionally. -/
theorem remove_duplicates_keeps_duplicates :
    remove_duplicates (cosineDistLt (1 / 10000)) (List.replicate 10 [1, 0, 0, 0])
      = (List.replicate 10 [1, 0, 0, 0], [0, 1, 2, 3, 4, 5, 6, 7, 8, 9])
    ∧ cosineDistLt (1 / 10000) [1, 0, 0, 0] [1, 0, 0, 0] = true := by
  constructor
  · rw [remove_duplicates_eq]
    decide
  · decide

/-- Shape check of `assert_normals`: the array has 2 axes (inherent to the
`List (List ℚ)` representation) and its second axis has length
`n_reward_features + int(use_equiv)`, i.e. every row has that length. -/
def assertNormalsChk (normals : List (List ℚ)) (useEquiv : Bool) (nFeat : ℕ) : Bool :=
  normals.all (fun row => decide (row.length = nFeat + (if useEquiv then 1 else 0)))

/-- Rowwise scaling `(normals.T * preferences).T`: row `i` of `normals` multiplied by
`preferences[i]`. -/
def orientScale (normals : List (List ℚ)) (preferences : List ℚ) : List (List ℚ) :=
  (normals.zip preferences).map (fun pr => pr.1.map (fun x => x * pr.2))

/-- The tail of `simulation_utils.orient_normals` after the 0/1 rescaling:
`assert np.all((preferences == 1) | (preferences == -1))`, the multiplication,
and the postcondition `assert_normals` on the result.  A failed assert is
`none`. -/
def orientCore (normals : List (List ℚ)) (prefs : List ℚ) (useEquiv : Bool) (nFeat : ℕ) :
    Option (List (List ℚ)) :=
  if prefs.all (fun p => decide (p = 1 ∨ p = -1)) = true then
    if assertNormalsChk (orientScale normals prefs) useEquiv nFeat = true then
      some (orientScale normals prefs)
    else none
  else none

/-- Embedding of `active/simulation_utils.orient_normals`: assert the normal
shape invariant and the preference length, rescale an all-{0,1} preference
array by `p * 2 - 1`, then orient.  Failed asserts are `none`. -/
def orient_normals (normals : List (List ℚ)) (preferences : List ℚ)
    (useEquiv : Bool) (nFeat : ℕ) : Option (List (List ℚ)) :=
  if assertNormalsChk normals useEquiv nFeat = true then
    if preferences.length = normals.length then
      orientCore normals
        (if preferences.all (fun p => decide (p = 0 ∨ p = 1)) = true
         then preferences.map (fun p => p * 2 - 1) else preferences) useEquiv nFeat
    else none
  else none

lemma assertNormalsChk_orientScale {normals : List (List ℚ)} (prefs : List ℚ) {ue : Bool}
    {nf : ℕ} (h : assertNormalsChk normals ue nf = true) :
    assertNormalsChk (orientScale normals prefs) ue nf = true := by
  rw [assertNormalsChk, List.all_eq_true] at h ⊢
  intro row hrow
  rw [orientScale, List.mem_map] at hrow
  obtain ⟨pr, hpr, rfl⟩ := hrow
  have h1 := h pr.1 (List.of_mem_zip hpr).1
  simpa using h1

lemma orientScale_length (normals : List (List ℚ)) (prefs : List ℚ) :
    (orientScale normals prefs).length = min normals.length prefs.length := by
  simp [orientScale]

lemma orientCore_pm {normals : List (List ℚ)} {prefs : List ℚ} {ue : Bool} {nf : ℕ}
    (hchk : assertNormalsChk normals ue nf = true)
    (hpm : prefs.all (fun p => decide (p = 1 ∨ p = -1)) = true) :
    orientCore normals prefs ue nf = some (orientScale normals prefs) := by
  rw [orientCore, if_pos hpm, if_pos (assertNormalsChk_orientScale prefs hchk)]

lemma map_remap_eq_self : ∀ prefs : List ℚ,
    prefs.all (fun p => decide (p = 0 ∨ p = 1)) = true →
    prefs.all (fun p => decide (p = 1 ∨ p = -1)) = true →
    prefs.map (fun p => p * 2 - 1) = prefs
  | [], _, _ => rfl
  | a :: l, h01, hpm => by
    simp only [List.all_cons, Bool.and_eq_true, decide_eq_true_eq] at h01 hpm
    have ha : a = 1 := by
      rcases h01.1 with h | h
      · exfalso
        rcases hpm.1 with h2 | h2 <;> rw [h] at h2 <;> norm_num at h2
      · exact h
    rw [List.map_cons,
      map_remap_eq_self l h01.2 hpm.2, ha]
    have h1 : (1 : ℚ) * 2 - 1 = 1 := by norm_num
    rw [h1]

lemma remap_all01_pm : ∀ prefs : List ℚ,
    prefs.all (fun p => decide (p = 0 ∨ p = 1)) = true →
    (prefs.map (fun p => p * 2 - 1)).all (fun p => decide (p = 1 ∨ p = -1)) = true
  | [], _ => rfl
  | a :: l, h01 => by
    simp only [List.all_cons, Bool.and_eq_true, decide_eq_true_eq] at h01
    rw [List.map_cons, List.all_cons, Bool.and_eq_true]
    refine ⟨?_, remap_all01_pm l h01.2⟩
    rcases h01.1 with h | h <;> rw [h] <;> norm_num

lemma orient_eq_scale_of_pm {normals : List (List ℚ)} {prefs : List ℚ} {ue : Bool} {nf : ℕ}
    (hchk : assertNormalsChk normals ue nf = true) (hlen : prefs.length = normals.length)
    (hpm : prefs.all (fun p => decide (p = 1 ∨ p = -1)) = true) :
    orient_normals normals prefs ue nf = some (orientScale normals prefs) := by
  rw [orient_normals, if_pos hchk, if_pos hlen]
  by_cases h01 : prefs.all (fun p => decide (p = 0 ∨ p = 1)) = true
  · rw [if_pos h01, map_remap_eq_self prefs h01 hpm]
    exact orientCore_pm hchk hpm
  · rw [if_neg h01]
    exact orientCore_pm hchk hpm

/-- C4: `orient_normals` multiplies each row by its preference value after
remapping an all-{0,1} preference array to {-1,+1} via `p * 2 - 1` (so 0 maps
to -1 and 1 to 1); a preference containing a value outside {-1, 0, 1} fails
the `(preferences == 1) | (preferences == -1)` assert, and a mismatched
preference length fails the shape assert; both rejections yield `none`. -/
theorem orient_normals_spec (normals : List (List ℚ)) (prefs : List ℚ) (ue : Bool) (nf : ℕ) :
    ((assertNormalsChk normals ue nf = true → prefs.length = normals.length →
      ((prefs.all (fun p => decide (p = 0 ∨ p = 1)) = true →
        orient_normals normals prefs ue nf
          = some (orientScale normals (prefs.map (fun p => p * 2 - 1))))
      ∧ (prefs.all (fun p => decide (p = 1 ∨ p = -1)) = true →
        orient_normals normals prefs ue nf = some (orientScale normals prefs)))))
    ∧ ((∃ p ∈ prefs, p ≠ -1 ∧ p ≠ 0 ∧ p ≠ 1) → orient_normals normals prefs ue nf = none)
    ∧ (prefs.length ≠ normals.length → orient_normals normals prefs ue nf = none) := by
  refine ⟨fun hchk hlen => ⟨fun h01 => ?_, fun hpm => orient_eq_scale_of_pm hchk hlen hpm⟩,
    fun hbad => ?_, fun hlen => ?_⟩
  · rw [orient_normals, if_pos hchk, if_pos hlen, if_pos h01]
    exact orientCore_pm hchk (remap_all01_pm prefs h01)
  · obtain ⟨p, hp, hne1, hne0, hpo⟩ := hbad
    rw [orient_normals]
    by_cases hchk : assertNormalsChk normals ue nf = true
    · rw [if_pos hchk]
      by_cases hlen : prefs.length = normals.length
      · rw [if_pos hlen]
        have h01 : ¬ prefs.all (fun p => decide (p = 0 ∨ p = 1)) = true := by
          intro hall
          rw [List.all_eq_true] at hall
          have := hall p hp
          simp only [decide_eq_true_eq] at this
          rcases this with h | h
          · exact hne0 h
          · exact hpo h
        rw [if_neg h01, orientCore]
        have hpm : ¬ prefs.all (fun p => decide (p = 1 ∨ p = -1)) = true := by
          intro hall
          rw [List.all_eq_true] at hall
          have := hall p hp
          simp only [decide_eq_true_eq] at this
          rcases this with h | h
          · exact hpo h
          · exact hne1 h
        rw [if_neg hpm]
      · rw [if_neg hlen]
    · rw [if_neg hchk]
  · rw [orient_normals]
    by_cases hchk : assertNormalsChk normals ue nf = true
    · rw [if_pos hchk, if_neg hlen]
    · rw [if_neg hchk]

/-- Witness for C4: the theorem evaluated on concrete inputs.  A 0/1 preference
`[0]` is remapped to `[-1]` and orients `[[1,0,0,0]]` to `[[-1,0,0,0]]`; the
out-of-range preference `[7]` and the mismatched-length preference `[1, 1]`
are both rejected. -/
theorem orient_normals_spec_witness :
    orient_normals [[1, 0, 0, 0]] [0] false 4
      = some (orientScale [[1, 0, 0, 0]] (List.map (fun p => p * 2 - 1) [0]))
    ∧ orient_normals [[1, 0, 0, 0]] [7] false 4 = none
    ∧ orient_normals [[1, 0, 0, 0]] [1, 1] false 4 = none :=
  ⟨((orient_normals_spec [[1, 0, 0, 0]] [0] false 4).1 (by decide) (by decide)).1 (by decide),
    (orient_normals_spec [[1, 0, 0, 0]] [7] false 4).2.1 ⟨7, by decide⟩,
    (orient_normals_spec [[1, 0, 0, 0]] [1, 1] false 4).2.2 (by decide)⟩

lemma orientScale_orientScale (normals : List (List ℚ)) : ∀ prefs : List ℚ,
    orientScale (orientScale normals prefs) prefs
      = orientScale normals (List.zipWith (· * ·) prefs prefs) := by
  induction normals with
  | nil => intro prefs; cases prefs <;> rfl
  | cons a n ih =>
    intro prefs
    cases prefs with
    | nil => rfl
    | cons b p =>
      show (a.map (fun x => x * b)).map (fun x => x * b) :: orientScale (orientScale n p) p
        = a.map (fun x => x * (b * b)) :: orientScale n (List.zipWith (· * ·) p p)
      rw [ih p, List.map_map]
      congr 1
      apply List.map_congr_left
      intro x _
      show x * b * b = x * (b * b)
      rw [mul_assoc]

lemma pm_sq_eq_one {p : ℚ} (hp : p = 1 ∨ p = -1) : p * p = 1 := by
  rcases hp with h | h <;> rw [h] <;> norm_num

lemma zipWith_sq_all01 : ∀ prefs : List ℚ,
    prefs.all (fun p => decide (p = 1 ∨ p = -1)) = true →
    (List.zipWith (· * ·) prefs prefs).all (fun p => decide (p = 0 ∨ p = 1)) = true
  | [], _ => rfl
  | a :: l, hpm => by
    simp only [List.all_cons, Bool.and_eq_true, decide_eq_true_eq] at hpm
    rw [List.zipWith_cons_cons, List.all_cons, Bool.and_eq_true]
    exact ⟨by simp [pm_sq_eq_one hpm.1], zipWith_sq_all01 l hpm.2⟩

lemma zipWith_sq_remap : ∀ prefs : List ℚ,
    prefs.all (fun p => decide (p = 1 ∨ p = -1)) = true →
    (List.zipWith (· * ·) prefs prefs).map (fun p => p * 2 - 1)
      = List.zipWith (· * ·) prefs prefs
  | [], _ => rfl
  | a :: l, hpm => by
    simp only [List.all_cons, Bool.and_eq_true, decide_eq_true_eq] at hpm
    rw [List.zipWith_cons_cons, List.map_cons,
      zipWith_sq_remap l hpm.2, pm_sq_eq_one hpm.1]
    have h1 : (1 : ℚ) * 2 - 1 = 1 := by norm_num
    rw [h1]

lemma zipWith_sq_pm : ∀ prefs : List ℚ,
    prefs.all (fun p => decide (p = 1 ∨ p = -1)) = true →
    (List.zipWith (· * ·) prefs prefs).all (fun p => decide (p = 1 ∨ p = -1)) = true
  | [], _ => rfl
  | a :: l, hpm => by
    simp only [List.all_cons, Bool.and_eq_true, decide_eq_true_eq] at hpm
    rw [List.zipWith_cons_cons, List.all_cons, Bool.and_eq_true]
    exact ⟨by simp [pm_sq_eq_one hpm.1], zipWith_sq_pm l hpm.2⟩

/-- C5 counterexample: the claim quantifies over every preference array
accepted by `orient_normals`, and `[0]` is accepted (it is all-{0,1}, so it is
remapped to `[-1]`).  Orienting `[[1,0,0,0]]` twice by `[0]` gives back
`[[1,0,0,0]]`, but orienting once by `[0] * [0] = [0]` gives `[[-1,0,0,0]]`. -/
theorem orient_twice_counterexample :
    ¬ ((orient_normals [[1, 0, 0, 0]] [0] false 4).bind
        (fun m => orient_normals m [0] false 4)
      = orient_normals [[1, 0, 0, 0]] (List.zipWith (· * ·) [0] [0]) false 4) := by
  decide

/-- C5 amended: for preference arrays with entries in {-1, +1} (no equivalence
labels), orienting twice by `p` equals orienting once by the elementwise
product `p * p`. -/
theorem orient_twice_eq_orient_sq (normals : List (List ℚ)) (prefs : List ℚ) (ue : Bool)
    (nf : ℕ) (hchk : assertNormalsChk normals ue nf = true)
    (hlen : prefs.length = normals.length)
    (hpm : prefs.all (fun p => decide (p = 1 ∨ p = -1)) = true) :
    (orient_normals normals prefs ue nf).bind (fun m => orient_normals m prefs ue nf)
      = orient_normals normals (List.zipWith (· * ·) prefs prefs) ue nf := by
  rw [orient_eq_scale_of_pm hchk hlen hpm, Option.some_bind]
  have hlen2 : prefs.length = (orientScale normals prefs).length := by
    rw [orientScale_length, hlen, min_self]
  rw [orient_eq_scale_of_pm (assertNormalsChk_orientScale prefs hchk) hlen2 hpm,
    orientScale_orientScale]
  rw [orient_normals, if_pos hchk]
  have hlen3 : (List.zipWith (· * ·) prefs prefs).length = normals.length := by
    rw [List.length_zipWith, min_self, hlen]
  rw [if_pos hlen3, if_pos (zipWith_sq_all01 prefs hpm), zipWith_sq_remap prefs hpm,
    orientCore_pm hchk (zipWith_sq_pm prefs hpm)]

/-- Witness for the amended C5 at a concrete input. -/
theorem orient_twice_eq_orient_sq_witness :
    (orient_normals [[1, 0, 0, 0]] [-1] false 4).bind
        (fun m => orient_normals m [-1] false 4)
      = orient_normals [[1, 0, 0, 0]] (List.zipWith (· * ·) [-1] [-1]) false 4 :=
  orient_twice_eq_orient_sq [[1, 0, 0, 0]] [-1] false 4 (by decide) (by decide) (by decide)

/-- Failure conditions of `post.filter_halfplanes`: the two `ValueError`s of
the noise stage, a failed `assert`, the `np.dot(None, ...)` failure when the
epsilon stage runs with no rewards available, and an out-of-range
`indices[constraint_indices]` lookup. -/
inductive PipelineError
  | mustProvideRewards
  | mustProvideNSamples
  | assertionFailed
  | rewardsMissingAtEpsilonStage
  | indexError
  deriving DecidableEq

/-- numpy membership `row in a` for a 2-D array `a` and 1-D `row`: it is
`(a == row).any()`, a broadcast elementwise comparison, true when any entry of
any row of `a` equals the corresponding entry of `row`. -/
def npContainsRow (a : List (List ℚ)) (row : List ℚ) : Bool :=
  a.any (fun r => (r.zip row).any (fun pr => decide (pr.1 = pr.2)))

/-- numpy boolean-mask indexing `idx[mask]`. -/
def maskFilter (idx : List ℕ) (mask : List Bool) : List ℕ :=
  ((idx.zip mask).filter (fun pr => pr.2)).map (fun pr => pr.1)

/-- Per-normal `np.mean(np.dot(rewards, filtered_normals.T) > 0, axis=0)`:
the fraction of reward samples with positive dot product with the normal. -/
def posFraction (rewards : List (List ℚ)) (n : List ℚ) : ℚ :=
  ((rewards.countP (fun r => decide (0 < dot r n)) : ℕ) : ℚ) / rewards.length

/-- Per-normal `np.mean(opinions > epsilon, axis=1)`: the fraction of reward
samples whose dot product with the normal exceeds `epsilon`. -/
def epsilonFraction (rewards : List (List ℚ)) (epsilon : ℚ) (n : List ℚ) : ℚ :=
  ((rewards.countP (fun r => decide (epsilon < dot r n)) : ℕ) : ℚ) / rewards.length

/-- The epsilon-gap stage predicate: a normal survives when the fraction of
samples with margin above `epsilon` exceeds `1 - delta`. -/
def epsilonSurvives (rewards : List (List ℚ)) (epsilon delta : ℚ) (n : List ℚ) : Bool :=
  decide (1 - delta < epsilonFraction rewards epsilon n)

/-- Deduplication stage of `filter_halfplanes` plus the
`assert np.all(normals[indices] == filtered_normals)` that follows it. -/
def dedupStage (normals : List (List ℚ)) (skip : Bool) :
    Except PipelineError (List (List ℚ) × List ℕ) :=
  let fi := if skip then (normals, List.range normals.length)
            else remove_duplicates (cosineDistLt (1 / 10000)) normals
  if selectRows normals fi.2 = fi.1 then .ok fi else .error .assertionFailed

/-- Numeric body of the noise-filtering stage: keep the indices whose normal
has a positive-dot-product fraction above the noise threshold, assert
`all([row in filtered_normals for row in normals[indices]])`, and rebuild
`filtered_normals = normals[indices]`. -/
def noiseCore (normals : List (List ℚ)) (noiseThreshold : ℚ) (rws : List (List ℚ))
    (fn : List (List ℚ)) (idx : List ℕ) :
    Except PipelineError (List (List ℚ) × List ℕ × Option (List (List ℚ))) :=
  let mask := fn.map (fun n => decide (noiseThreshold < posFraction rws n))
  let idx2 := maskFilter idx mask
  if (selectRows normals idx2).all (fun row => npContainsRow fn row) = true then
    .ok (selectRows normals idx2, idx2, some rws)
  else .error .assertionFailed

/-- Noise-filtering stage of `filter_halfplanes`.  With `rewards` missing it
raises `ValueError` in deterministic mode or with no sample count, and
otherwise draws rewards from the MCMC sampler oracle (call index 0); the drawn
or supplied rewards are threaded onward as the `rewards` local of the source. -/
def noiseStage (sampler : ℕ → List (List ℚ)) (normals : List (List ℚ))
    (deterministic : Bool) (nSamples : Option ℕ) (rewards : Option (List (List ℚ)))
    (noiseThreshold : ℚ) (skip : Bool) (fn : List (List ℚ)) (idx : List ℕ) :
    Except PipelineError (List (List ℚ) × List ℕ × Option (List (List ℚ))) :=
  if skip then .ok (fn, idx, rewards)
  else
    match rewards with
    | some rws => noiseCore normals noiseThreshold rws fn idx
    | none =>
      if deterministic then .error .mustProvideRewards
      else
        match nSamples with
        | none => .error .mustProvideNSamples
        | some _ => noiseCore normals noiseThreshold (sampler 0) fn idx

/-- Numeric body of the epsilon-gap stage, mirroring `noiseCore` with the
`epsilonSurvives` predicate. -/
def epsilonCore (normals : List (List ℚ)) (epsilon delta : ℚ) (rws : List (List ℚ))
    (fn : List (List ℚ)) (idx : List ℕ) :
    Except PipelineError (List (List ℚ) × List ℕ × Option (List (List ℚ))) :=
  let mask := fn.map (fun n => epsilonSurvives rws epsilon delta n)
  let idx2 := maskFilter idx mask
  if (selectRows normals idx2).all (fun row => npContainsRow fn row) = true then
    .ok (selectRows normals idx2, idx2, some rws)
  else .error .assertionFailed

/-- Epsilon-gap stage of `filter_halfplanes`: skipped when requested or when
the surviving set is empty; re-samples rewards (sampler call index 1) when not
deterministic and a sample count is given; `np.dot(None, ...)` when no rewards
are available is a failure. -/
def epsilonStage (sampler : ℕ → List (List ℚ)) (normals : List (List ℚ))
    (deterministic : Bool) (nSamples : Option ℕ) (epsilon delta : ℚ) (skip : Bool)
    (fn : List (List ℚ)) (idx : List ℕ) (rewards : Option (List (List ℚ))) :
    Except PipelineError (List (List ℚ) × List ℕ × Option (List (List ℚ))) :=
  if skip = true ∨ fn.length = 0 then .ok (fn, idx, rewards)
  else
    match (if deterministic = false ∧ nSamples.isSome = true then some (sampler 1)
           else rewards) with
    | none => .error .rewardsMissingAtEpsilonStage
    | some rws => epsilonCore normals epsilon delta rws fn idx

/-- Redundancy-removal stage of `filter_halfplanes`: delegates to the external
LP routine (oracle `removeRedundant`), maps the kept constraint indices back
through the running index array, and asserts
`np.all(normals[indices] == filtered_normals)`. -/
def redundancyStage (removeRedundant : List (List ℚ) → List (List ℚ) × List ℕ)
    (normals : List (List ℚ)) (skip : Bool) (fn : List (List ℚ)) (idx : List ℕ) :
    Except PipelineError (List (List ℚ) × List ℕ) :=
  if skip = true ∨ fn.length = 0 then .ok (fn, idx)
  else
    if (removeRedundant fn).2.all (fun j => decide (j < idx.length)) = true then
      if selectRows normals ((removeRedundant fn).2.map (fun j => idx.getD j 0))
          = (removeRedundant fn).1 then
        .ok ((removeRedundant fn).1, (removeRedundant fn).2.map (fun j => idx.getD j 0))
      else .error .assertionFailed
    else .error .indexError

/-- The tail of the pipeline after the noise stage (epsilon-gap filtering then
redundancy removal). -/
def pipelineTail (sampler : ℕ → List (List ℚ))
    (removeRedundant : List (List ℚ) → List (List ℚ) × List ℕ)
    (normals : List (List ℚ)) (deterministic : Bool) (nSamples : Option ℕ)
    (epsilon delta : ℚ) (skipEps skipRed : Bool)
    (st : List (List ℚ) × List ℕ × Option (List (List ℚ))) :
    Except PipelineError (List (List ℚ) × List ℕ) :=
  Except.bind
    (epsilonStage sampler normals deterministic nSamples epsilon delta skipEps
      st.1 st.2.1 st.2.2)
    (fun st2 => redundancyStage removeRedundant normals skipRed st2.1 st2.2.1)

/-- Embedding of `post.filter_halfplanes`: deduplication, noise filtering,
epsilon-gap filtering and redundancy removal in order, each independently
skippable, with the asserts of the source as guards.  `sampler` is the MCMC
posterior sampler oracle (`sample(...)`, indexed by call number since the RNG
state advances between calls) and `removeRedundant` the external LP
redundant-constraint remover. -/
def filter_halfplanes (sampler : ℕ → List (List ℚ))
    (removeRedundant : List (List ℚ) → List (List ℚ) × List ℕ)
    (normals : List (List ℚ)) (noiseThreshold epsilon delta : ℚ)
    (nSamples : Option ℕ) (rewards : Option (List (List ℚ))) (deterministic : Bool)
    (skipRemoveDuplicates skipNoiseFiltering skipEpsilonFiltering
      skipRedundancyFiltering : Bool) :
    Except PipelineError (List (List ℚ) × List ℕ) :=
  Except.bind (dedupStage normals skipRemoveDuplicates) (fun fi0 =>
    Except.bind
      (noiseStage sampler normals deterministic nSamples rewards noiseThreshold
        skipNoiseFiltering fi0.1 fi0.2)
      (fun st1 =>
        pipelineTail sampler removeRedundant normals deterministic nSamples epsilon delta
          skipEpsilonFiltering skipRedundancyFiltering st1))

lemma exceptBind_ok {α β : Type} (a : α) (f : α → Except PipelineError β) :
    Except.bind (Except.ok a) f = f a := rfl

lemma exceptBind_error {α β : Type} (e : PipelineError) (f : α → Except PipelineError β) :
    Except.bind (Except.error e) f = Except.error e := rfl

lemma dedupStage_eq (normals : List (List ℚ)) (skip : Bool) :
    dedupStage normals skip = .ok (normals, List.range normals.length) := by
  cases skip <;>
    simp [dedupStage, remove_duplicates_eq, selectRows_range]

lemma noiseCore_ok {normals : List (List ℚ)} {nt : ℚ} {rws fn : List (List ℚ)} {idx : List ℕ}
    {out : List (List ℚ) × List ℕ × Option (List (List ℚ))}
    (h : noiseCore normals nt rws fn idx = .ok out) : out.1 = selectRows normals out.2.1 := by
  rw [noiseCore] at h
  split at h
  · cases h
    rfl
  · cases h

lemma epsilonCore_ok {normals : List (List ℚ)} {eps del : ℚ} {rws fn : List (List ℚ)}
    {idx : List ℕ} {out : List (List ℚ) × List ℕ × Option (List (List ℚ))}
    (h : epsilonCore normals eps del rws fn idx = .ok out) :
    out.1 = selectRows normals out.2.1 := by
  rw [epsilonCore] at h
  split at h
  · cases h
    rfl
  · cases h

lemma noiseStage_ok {sampler : ℕ → List (List ℚ)} {normals : List (List ℚ)} {det : Bool}
    {ns : Option ℕ} {rw0 : Option (List (List ℚ))} {nt : ℚ} {skip : Bool}
    {fn : List (List ℚ)} {idx : List ℕ}
    {out : List (List ℚ) × List ℕ × Option (List (List ℚ))}
    (h : noiseStage sampler normals det ns rw0 nt skip fn idx = .ok out)
    (hin : fn = selectRows normals idx) : out.1 = selectRows normals out.2.1 := by
  rw [noiseStage.eq_def] at h
  split at h
  · cases h
    exact hin
  · split at h
    · exact noiseCore_ok h
    · split at h
      · cases h
      · split at h
        · cases h
        · exact noiseCore_ok h

lemma epsilonStage_ok {sampler : ℕ → List (List ℚ)} {normals : List (List ℚ)} {det : Bool}
    {ns : Option ℕ} {eps del : ℚ} {skip : Bool} {fn : List (List ℚ)} {idx : List ℕ}
    {rw0 : Option (List (List ℚ))} {out : List (List ℚ) × List ℕ × Option (List (List ℚ))}
    (h : epsilonStage sampler normals det ns eps del skip fn idx rw0 = .ok out)
    (hin : fn = selectRows normals idx) : out.1 = selectRows normals out.2.1 := by
  rw [epsilonStage.eq_def] at h
  split at h
  · cases h
    exact hin
  · split at h
    · cases h
    · exact epsilonCore_ok h

lemma redundancyStage_ok {removeRedundant : List (List ℚ) → List (List ℚ) × List ℕ}
    {normals : List (List ℚ)} {skip : Bool} {fn : List (List ℚ)} {idx : List ℕ}
    {out : List (List ℚ) × List ℕ}
    (h : redundancyStage removeRedundant normals skip fn idx = .ok out)
    (hin : fn = selectRows normals idx) : out.1 = selectRows normals out.2 := by
  rw [redundancyStage] at h
  split at h
  · cases h
    exact hin
  · split at h
    · split at h
      case isTrue hguard =>
        cases h
        exact hguard.symm
      case isFalse => cases h
    · cases h

lemma pipelineTail_ok {sampler : ℕ → List (List ℚ)}
    {removeRedundant : List (List ℚ) → List (List ℚ) × List ℕ}
    {normals : List (List ℚ)} {det : Bool} {ns : Option ℕ} {eps del : ℚ}
    {s3 s4 : Bool} {st : List (List ℚ) × List ℕ × Option (List (List ℚ))}
    {out : List (List ℚ) × List ℕ}
    (h : pipelineTail sampler removeRedundant normals det ns eps del s3 s4 st = .ok out)
    (hin : st.1 = selectRows normals st.2.1) : out.1 = selectRows normals out.2 := by
  rw [pipelineTail] at h
  cases heps : epsilonStage sampler normals det ns eps del s3 st.1 st.2.1 st.2.2 with
  | error e =>
    rw [heps, exceptBind_error] at h
    cases h
  | ok st2 =>
    rw [heps, exceptBind_ok] at h
    exact redundancyStage_ok h (epsilonStage_ok heps hin)

/-- C3: whenever `filter_halfplanes` returns a pair `(filtered_normals,
indices)` the filtered normals are literally `normals[indices]`, for every
oracle and every combination of skip flags; and with all four stages skipped
it returns the input normals unchanged with indices `0..N-1`. -/
theorem filter_halfplanes_consistent (sampler : ℕ → List (List ℚ))
    (removeRedundant : List (List ℚ) → List (List ℚ) × List ℕ)
    (normals : List (List ℚ)) (noiseThreshold epsilon delta : ℚ)
    (nSamples : Option ℕ) (rewards : Option (List (List ℚ))) (deterministic : Bool)
    (s1 s2 s3 s4 : Bool) :
    (∀ fn idx, filter_halfplanes sampler removeRedundant normals noiseThreshold epsilon
        delta nSamples rewards deterministic s1 s2 s3 s4 = .ok (fn, idx) →
      fn = selectRows normals idx)
    ∧ filter_halfplanes sampler removeRedundant normals noiseThreshold epsilon delta
        nSamples rewards deterministic true true true true
      = .ok (normals, List.range normals.length) := by
  constructor
  · intro fn idx h
    rw [filter_halfplanes, dedupStage_eq, exceptBind_ok] at h
    cases heq1 : noiseStage sampler normals deterministic nSamples rewards noiseThreshold
        s2 normals (List.range normals.length) with
    | error e =>
      rw [heq1, exceptBind_error] at h
      cases h
    | ok st1 =>
      rw [heq1, exceptBind_ok] at h
      exact pipelineTail_ok h (noiseStage_ok heq1 (selectRows_range normals).symm)
  · rw [filter_halfplanes, dedupStage_eq]
    rfl

/-- Witness for C3: on a concrete input with all four stages skipped the
pipeline returns the input unchanged, and the consistency implication applied
to that run gives the fancy-indexing identity. -/
theorem filter_halfplanes_consistent_witness :
    filter_halfplanes (fun _ => []) (fun l => (l, [])) [[1, 0, 0, 0]] (7/10) 0 (1/20)
        none none false true true true true = .ok ([[1, 0, 0, 0]], [0])
    ∧ [[1, 0, 0, 0]] = selectRows [[1, 0, 0, 0]] [0] :=
  ⟨by rfl,
    (filter_halfplanes_consistent (fun _ => []) (fun l => (l, [])) [[1, 0, 0, 0]] (7/10) 0
      (1/20) none none false true true true true).1 [[1, 0, 0, 0]] [0] (by rfl)⟩

/-- C6: the epsilon-gap stage predicate is antitone in `epsilon` with the
reward samples held fixed: every normal surviving at `eps2` survives at any
`eps1 ≤ eps2`, so the number of surviving normals never increases with
`epsilon`. -/
theorem epsilon_stage_antitone (rewards : List (List ℚ)) (normalsL : List (List ℚ))
    (eps1 eps2 delta : ℚ) (h : eps1 ≤ eps2) :
    (∀ n, epsilonSurvives rewards eps2 delta n = true →
      epsilonSurvives rewards eps1 delta n = true)
    ∧ (normalsL.filter (epsilonSurvives rewards eps2 delta)).length
        ≤ (normalsL.filter (epsilonSurvives rewards eps1 delta)).length := by
  have key : ∀ n, epsilonFraction rewards eps2 n ≤ epsilonFraction rewards eps1 n := by
    intro n
    unfold epsilonFraction
    have hcount : rewards.countP (fun r => decide (eps2 < dot r n))
        ≤ rewards.countP (fun r => decide (eps1 < dot r n)) := by
      apply List.countP_mono_left
      intro r _ hr
      simp only [decide_eq_true_eq] at hr ⊢
      exact lt_of_le_of_lt h hr
    rcases Nat.eq_zero_or_pos rewards.length with h0 | h0
    · rw [h0]
      norm_num
    · have hc : (0 : ℚ) < rewards.length := by exact_mod_cast h0
      gcongr
  have point : ∀ n, epsilonSurvives rewards eps2 delta n = true →
      epsilonSurvives rewards eps1 delta n = true := by
    intro n hn
    unfold epsilonSurvives at hn ⊢
    simp only [decide_eq_true_eq] at hn ⊢
    exact lt_of_lt_of_le hn (key n)
  refine ⟨point, ?_⟩
  induction normalsL with
  | nil => exact le_refl 0
  | cons a l ih =>
    simp only [List.filter_cons]
    by_cases hp : epsilonSurvives rewards eps2 delta a = true
    · rw [if_pos hp, if_pos (point a hp)]
      simpa using ih
    · rw [if_neg hp]
      by_cases hq : epsilonSurvives rewards eps1 delta a = true
      · rw [if_pos hq]
        exact le_trans ih (by simp)
      · rw [if_neg hq]
        exact ih

/-- Witness for C6 at concrete inputs. -/
theorem epsilon_stage_antitone_witness :
    (epsilonSurvives [[1, 0, 0, 0]] 1 (1/20) [2, 0, 0, 0] = true →
      epsilonSurvives [[1, 0, 0, 0]] 0 (1/20) [2, 0, 0, 0] = true)
    ∧ ([[2, 0, 0, 0]].filter (epsilonSurvives [[1, 0, 0, 0]] 1 (1/20))).length
        ≤ ([[2, 0, 0, 0]].filter (epsilonSurvives [[1, 0, 0, 0]] 0 (1/20))).length :=
  ⟨(epsilon_stage_antitone [[1, 0, 0, 0]] [[2, 0, 0, 0]] 0 1 (1/20) (by norm_num)).1
      [2, 0, 0, 0],
    (epsilon_stage_antitone [[1, 0, 0, 0]] [[2, 0, 0, 0]] 0 1 (1/20) (by norm_num)).2⟩

/-- The two missing-required-input `ValueError`s of the noise stage. -/
def isMissingInputError : PipelineError → Bool
  | .mustProvideRewards => true
  | .mustProvideNSamples => true
  | _ => false

/-- Whether a pipeline result is a missing-required-input failure. -/
def resultIsMissingInput (r : Except PipelineError (List (List ℚ) × List ℕ)) : Bool :=
  match r with
  | .error e => isMissingInputError e
  | .ok _ => false

lemma noiseCore_error {normals : List (List ℚ)} {nt : ℚ} {rws fn : List (List ℚ)}
    {idx : List ℕ} {e : PipelineError}
    (h : noiseCore normals nt rws fn idx = .error e) : e = .assertionFailed := by
  rw [noiseCore] at h
  split at h
  · cases h
  · cases h
    rfl

lemma epsilonCore_error {normals : List (List ℚ)} {eps del : ℚ} {rws fn : List (List ℚ)}
    {idx : List ℕ} {e : PipelineError}
    (h : epsilonCore normals eps del rws fn idx = .error e) : e = .assertionFailed := by
  rw [epsilonCore] at h
  split at h
  · cases h
  · cases h
    rfl

lemma epsilonStage_error {sampler : ℕ → List (List ℚ)} {normals : List (List ℚ)}
    {det : Bool} {ns : Option ℕ} {eps del : ℚ} {skip : Bool} {fn : List (List ℚ)}
    {idx : List ℕ} {rw0 : Option (List (List ℚ))} {e : PipelineError}
    (h : epsilonStage sampler normals det ns eps del skip fn idx rw0 = .error e) :
    isMissingInputError e = false := by
  rw [epsilonStage] at h
  split at h
  · cases h
  · split at h
    · cases h
      rfl
    · rw [epsilonCore_error h]
      rfl

lemma redundancyStage_error {removeRedundant : List (List ℚ) → List (List ℚ) × List ℕ}
    {normals : List (List ℚ)} {skip : Bool} {fn : List (List ℚ)} {idx : List ℕ}
    {e : PipelineError}
    (h : redundancyStage removeRedundant normals skip fn idx = .error e) :
    isMissingInputError e = false := by
  rw [redundancyStage] at h
  split at h
  · cases h
  · split at h
    · split at h
      · cases h
      · cases h
        rfl
    · cases h
      rfl

lemma pipelineTail_not_missing (sampler : ℕ → List (List ℚ))
    (removeRedundant : List (List ℚ) → List (List ℚ) × List ℕ)
    (normals : List (List ℚ)) (det : Bool) (ns : Option ℕ) (eps del : ℚ)
    (s3 s4 : Bool) (st : List (List ℚ) × List ℕ × Option (List (List ℚ))) :
    resultIsMissingInput
      (pipelineTail sampler removeRedundant normals det ns eps del s3 s4 st) = false := by
  rw [pipelineTail]
  cases heps : epsilonStage sampler normals det ns eps del s3 st.1 st.2.1 st.2.2 with
  | error e =>
    simp only [exceptBind_error]
    exact epsilonStage_error heps
  | ok st2 =>
    simp only [exceptBind_ok]
    cases hred : redundancyStage removeRedundant normals s4 st2.1 st2.2.1 with
    | error e =>
      exact redundancyStage_error hred
    | ok out =>
      rfl

/-- C7: `filter_halfplanes` fails with a missing-required-input `ValueError`
(before any sampling or noise-stage numeric work: the result does not depend
on the sampler oracle) exactly when noise filtering is enabled, `rewards` is
`None`, and either `deterministic` is set or `n_samples` is `None`; in every
other configuration no such error is produced. -/
theorem noise_missing_input_iff (sampler : ℕ → List (List ℚ))
    (removeRedundant : List (List ℚ) → List (List ℚ) × List ℕ)
    (normals : List (List ℚ)) (noiseThreshold epsilon delta : ℚ)
    (nSamples : Option ℕ) (rewards : Option (List (List ℚ))) (deterministic : Bool)
    (s1 s2 s3 s4 : Bool) :
    resultIsMissingInput (filter_halfplanes sampler removeRedundant normals noiseThreshold
        epsilon delta nSamples rewards deterministic s1 s2 s3 s4) = true
    ↔ (s2 = false ∧ rewards = none ∧ (deterministic = true ∨ nSamples = none)) := by
  simp only [filter_halfplanes, dedupStage_eq, exceptBind_ok]
  cases s2 with
  | true =>
    simp only [show noiseStage sampler normals deterministic nSamples rewards noiseThreshold
        true normals (List.range normals.length)
        = .ok (normals, List.range normals.length, rewards) from rfl, exceptBind_ok]
    simp [pipelineTail_not_missing]
  | false =>
    cases rewards with
    | some rws =>
      simp only [show noiseStage sampler normals deterministic nSamples (some rws)
          noiseThreshold false normals (List.range normals.length)
          = noiseCore normals noiseThreshold rws normals (List.range normals.length) from rfl]
      cases hnc : noiseCore normals noiseThreshold rws normals (List.range normals.length) with
      | error e =>
        simp only [hnc, exceptBind_error, noiseCore_error hnc]
        simp [resultIsMissingInput, isMissingInputError]
      | ok st1 =>
        simp only [hnc, exceptBind_ok]
        simp [pipelineTail_not_missing]
    | none =>
      cases deterministic with
      | true =>
        simp only [show noiseStage sampler normals true nSamples none noiseThreshold false
            normals (List.range normals.length) = .error .mustProvideRewards from rfl,
          exceptBind_error]
        simp [resultIsMissingInput, isMissingInputError]
      | false =>
        cases nSamples with
        | none =>
          simp only [show noiseStage sampler normals false none none noiseThreshold false
              normals (List.range normals.length) = .error .mustProvideNSamples from rfl,
            exceptBind_error]
          simp [resultIsMissingInput, isMissingInputError]
        | some k =>
          simp only [show noiseStage sampler normals false (some k) none noiseThreshold false
              normals (List.range normals.length)
              = noiseCore normals noiseThreshold (sampler 0) normals
                  (List.range normals.length) from rfl]
          cases hnc : noiseCore normals noiseThreshold (sampler 0) normals
              (List.range normals.length) with
          | error e =>
            simp only [hnc, exceptBind_error, noiseCore_error hnc]
            simp [resultIsMissingInput, isMissingInputError]
          | ok st1 =>
            simp only [hnc, exceptBind_ok]
            simp [pipelineTail_not_missing]

/-- Witness for C7: with noise filtering enabled, no rewards, and
deterministic mode, the pipeline reports the missing-input failure. -/
theorem noise_missing_input_iff_witness :
    resultIsMissingInput (filter_halfplanes (fun _ => []) (fun l => (l, []))
      [[1, 0, 0, 0]] (7/10) 0 (1/20) none none true false false false false) = true :=
  (noise_missing_input_iff (fun _ => []) (fun l => (l, [])) [[1, 0, 0, 0]] (7/10) 0 (1/20)
    none none true false false false false).mpr (by decide)

/-- Embedding of `run_tests.assert_reward`: the reward has shape
`(N_FEATURES + int(use_equiv),)` with `N_FEATURES = 4`, and
`abs(norm(reward) - 1) < 1e-6`, rendered in exact arithmetic by squaring (the
L2 norm itself takes a real square root): `(1 - 1e-6)² < ‖r‖² < (1 + 1e-6)²`. -/
def assertRewardChk (reward : List ℚ) (useEquiv : Bool) : Bool :=
  decide (reward.length = 4 + (if useEquiv then 1 else 0)) &&
    (decide ((1 - 1/1000000) * (1 - 1/1000000) < sqnorm reward) &&
      decide (sqnorm reward < (1 + 1/1000000) * (1 + 1/1000000)))

/-- Predicted alignment `np.all(np.dot(rewards, normals.T) > 0, axis=1)`: one boolean per reward,
true when every normal has positive dot product with it. -/
def alignmentLabels (normals rewards : List (List ℚ)) : List Bool :=
  rewards.map (fun r => normals.all (fun n => decide (0 < dot r n)))

/-- Embedding of `run_tests.run_test`: asserts the normal shape invariant,
then predicts alignment of each reward. -/
def run_test (normals rewards : List (List ℚ)) (useEquiv : Bool) : Option (List Bool) :=
  if assertNormalsChk normals useEquiv 4 = true then some (alignmentLabels normals rewards)
  else none

/-- Embedding of `sklearn.metrics.confusion_matrix(y_true, y_pred, labels=[False, True])`:
entry `(i, j)` counts positions with truth `labels[i]` and prediction
`labels[j]`. -/
def confusionMatrix (yTrue yPred : List Bool) : List (List ℕ) :=
  [[(yTrue.zip yPred).countP (fun pr => !pr.1 && !pr.2),
    (yTrue.zip yPred).countP (fun pr => !pr.1 && pr.2)],
   [(yTrue.zip yPred).countP (fun pr => pr.1 && !pr.2),
    (yTrue.zip yPred).countP (fun pr => pr.1 && pr.2)]]

/-- Embedding of `run_tests.eval_test`: asserts lengths and per-reward norm,
then scores predictions against ground truth; with an empty normal set every
prediction is `np.ones(aligned.shape, dtype=bool)`. -/
def eval_test (normals rewards : List (List ℚ)) (aligned : List Bool) (useEquiv : Bool) :
    Option (List (List ℕ)) :=
  if rewards.length = aligned.length then
    if rewards.all (fun r => assertRewardChk r useEquiv) = true then
      if 0 < normals.length then
        match run_test normals rewards useEquiv with
        | none => none
        | some results => some (confusionMatrix aligned results)
      else some (confusionMatrix aligned (List.replicate aligned.length true))
    else none
  else none

lemma zip_replicate_true (aligned : List Bool) :
    aligned.zip (List.replicate aligned.length true) = aligned.map (fun b => (b, true)) := by
  induction aligned with
  | nil => rfl
  | cons a l ih => simp [List.replicate_succ, ih]

lemma confusionMatrix_all_true (aligned : List Bool) :
    confusionMatrix aligned (List.replicate aligned.length true)
      = [[0, aligned.countP (fun b => !b)], [0, aligned.countP (fun b => b)]] := by
  rw [confusionMatrix, zip_replicate_true]
  simp [List.countP_map, Function.comp_def]

/-- C8: `eval_test` with an empty filtered-normal set predicts every reward as
aligned, so in the confusion matrix with label order `[False, True]` the
prediction-False column is zero: every ground-truth-unaligned reward is a
false positive (top-right entry) and no reward is predicted unaligned. -/
theorem eval_test_empty (rewards : List (List ℚ)) (aligned : List Bool) (useEquiv : Bool)
    (hlen : rewards.length = aligned.length)
    (hrw : rewards.all (fun r => assertRewardChk r useEquiv) = true) :
    eval_test [] rewards aligned useEquiv
      = some [[0, aligned.countP (fun b => !b)], [0, aligned.countP (fun b => b)]] := by
  rw [eval_test, if_pos hlen, if_pos hrw, if_neg (by simp), confusionMatrix_all_true]

/-- Witness for C8: two unit-norm rewards, one ground-truth-unaligned; the
matrix records it as a false positive. -/
theorem eval_test_empty_witness :
    eval_test [] [[1, 0, 0, 0], [0, 1, 0, 0]] [false, true] false = some [[0, 1], [0, 1]] :=
  (eval_test_empty [[1, 0, 0, 0], [0, 1, 0, 0]] [false, true] false (by rfl)
    (by decide)).trans (by decide)

/-- Python-level failures inside `run_tests.make_gaussian_rewards`. -/
inductive NumpyCallError
  | assertFailed
  | stackMultipleAxisValues
  deriving DecidableEq

/-- Embedding of `run_tests.make_gaussian_rewards`.  The oracle `sample`
models `multivariate_normal(mean, cov).rvs(size=n_rewards)` followed by the
row normalization `normalize` (external: scipy RNG and real square roots); the
mean and covariance are fixed by the caller and absorbed into the oracle.
With `use_equiv` the source runs
`np.stack(rewards, np.ones(rewards.shape[0]), axis=1)`: the ones array is
bound positionally to the `axis` parameter of `np.stack` while `axis=1` is
also passed by keyword, so Python rejects the call with
`TypeError: got multiple values for argument axis` and the function cannot
return. -/
def make_gaussian_rewards (sample : ℕ → List (List ℚ)) (nRewards : ℕ) (useEquiv : Bool) :
    Except NumpyCallError (List (List ℚ)) :=
  if 0 < nRewards then
    if useEquiv = true then .error .stackMultipleAxisValues
    else .ok (sample nRewards)
  else .error .assertFailed

/-- C10: `make_gaussian_rewards` never returns normally with `use_equiv=True`:
for every positive `n_rewards` (and every draw of the sampler) the duplicated
`axis` argument of `np.stack` raises, so unit-norm reward generation succeeds
only with `use_equiv=False`. -/
theorem make_gaussian_rewards_use_equiv (sample : ℕ → List (List ℚ)) (nRewards : ℕ)
    (h : 0 < nRewards) :
    make_gaussian_rewards sample nRewards true = .error .stackMultipleAxisValues := by
  rw [make_gaussian_rewards, if_pos h, if_pos rfl]

/-- Witness for C10 at `n_rewards = 1`. -/
theorem make_gaussian_rewards_use_equiv_witness :
    make_gaussian_rewards (fun _ => [[1, 0, 0, 0]]) 1 true
      = .error .stackMultipleAxisValues :=
  make_gaussian_rewards_use_equiv (fun _ => [[1, 0, 0, 0]]) 1 (by decide)

/-- Mean of a boolean array (`np.mean`), as the count of `True` over the
length. -/
def boolMean (l : List Bool) : ℚ := ((l.countP (fun b => b) : ℕ) : ℚ) / l.length

/-- One evaluation of the loop body data of `find_reward_boundary`: sample
rewards at the current covariance (call index `k`), restrict the normals to
those with margin above `epsilon` under the true reward, and label each
sampled reward aligned when all restricted normals have positive dot product
with it. -/
def frbLabels (sampler : ℕ → ℚ → List (List ℚ)) (reward : List ℚ) (epsilon : ℚ)
    (k : ℕ) (cov : ℚ) (normals : List (List ℚ)) : List Bool :=
  alignmentLabels (normals.filter (fun n => decide (epsilon < dot reward n))) (sampler k cov)

/-- The covariance-rescaling `while` loop of `find_reward_boundary`, with a
fuel parameter standing for the missing iteration cap (the source has none):
running out of fuel is `none`.  While the mean alignment is above 0.55 the
covariance is multiplied by 1.1, while below 0.45 it is divided by 1.1, and
the loop re-samples (`sampler` is indexed by call number since the RNG state
advances) and re-filters the already-filtered normals. -/
def findRewardBoundaryLoop (sampler : ℕ → ℚ → List (List ℚ)) (reward : List ℚ)
    (epsilon : ℚ) : ℕ → ℕ → ℚ → List (List ℚ) → Option (List (List ℚ) × List Bool)
  | 0, k, cov, normals =>
    if 11/20 < boolMean (frbLabels sampler reward epsilon k cov normals)
        ∨ boolMean (frbLabels sampler reward epsilon k cov normals) < 9/20 then none
    else some (sampler k cov, frbLabels sampler reward epsilon k cov normals)
  | fuel + 1, k, cov, normals =>
    if 11/20 < boolMean (frbLabels sampler reward epsilon k cov normals)
        ∨ boolMean (frbLabels sampler reward epsilon k cov normals) < 9/20 then
      findRewardBoundaryLoop sampler reward epsilon fuel (k + 1)
        (if 11/20 < boolMean (frbLabels sampler reward epsilon k cov normals)
         then cov * (11/10) else cov * (10/11))
        (normals.filter (fun n => decide (epsilon < dot reward n)))
    else some (sampler k cov, frbLabels sampler reward epsilon k cov normals)

/-- Embedding of `run_tests.find_reward_boundary` (with `use_equiv = False`;
with `use_equiv = True` the inner `make_gaussian_rewards` raises, see the C10
theorem): the entry asserts, the rescaling loop starting at `cov = 1.0`, and
the final shape asserts. -/
def find_reward_boundary (sampler : ℕ → ℚ → List (List ℚ)) (normals : List (List ℚ))
    (nRewards : ℕ) (reward : List ℚ) (epsilon : ℚ) (useEquiv : Bool) (fuel : ℕ) :
    Option (List (List ℚ) × List Bool) :=
  if assertNormalsChk normals useEquiv 4 = true ∧ 0 < nRewards ∧ 0 ≤ epsilon
      ∧ assertRewardChk reward useEquiv = true then
    match findRewardBoundaryLoop sampler reward epsilon fuel 0 1 normals with
    | none => none
    | some (rewards, ga) =>
      if ga.length = nRewards ∧ rewards.length = nRewards
          ∧ rewards.all (fun r => decide (r.length = 4)) = true then
        some (rewards, ga)
      else none
  else none

lemma frbLoop_mean (sampler : ℕ → ℚ → List (List ℚ)) (reward : List ℚ) (epsilon : ℚ) :
    ∀ (fuel k : ℕ) (cov : ℚ) (normals rewards : List (List ℚ)) (ga : List Bool),
      findRewardBoundaryLoop sampler reward epsilon fuel k cov normals
        = some (rewards, ga) →
      9/20 ≤ boolMean ga ∧ boolMean ga ≤ 11/20
  | 0, k, cov, normals, rewards, ga, h => by
    rw [findRewardBoundaryLoop] at h
    split at h
    · cases h
    case isFalse hband =>
      cases h
      push_neg at hband
      exact ⟨hband.2, hband.1⟩
  | fuel + 1, k, cov, normals, rewards, ga, h => by
    rw [findRewardBoundaryLoop] at h
    split at h
    · exact frbLoop_mean sampler reward epsilon fuel _ _ _ rewards ga h
    case isFalse hband =>
      cases h
      push_neg at hband
      exact ⟨hband.2, hband.1⟩

/-- C2 amended: whenever `find_reward_boundary` returns, the mean of the
returned ground-truth alignment labels lies in `[0.45, 0.55]` (this is the
loop exit condition).  The termination half of the claim is refuted separately
at a concrete degenerate input. -/
theorem find_reward_boundary_mean (sampler : ℕ → ℚ → List (List ℚ))
    (normals : List (List ℚ)) (nRewards : ℕ) (reward : List ℚ) (epsilon : ℚ)
    (useEquiv : Bool) (fuel : ℕ) (rewards : List (List ℚ)) (ga : List Bool)
    (h : find_reward_boundary sampler normals nRewards reward epsilon useEquiv fuel
      = some (rewards, ga)) :
    9/20 ≤ boolMean ga ∧ boolMean ga ≤ 11/20 := by
  rw [find_reward_boundary] at h
  split at h
  · split at h
    · cases h
    case _ rewards2 ga2 heq =>
      split at h
      · cases h
        exact frbLoop_mean sampler reward epsilon fuel 0 1 normals rewards ga heq
      · cases h
  · cases h

/-- Witness for the amended C2: a run that exits the loop immediately with
alignment fraction 1/2. -/
theorem find_reward_boundary_mean_witness :
    find_reward_boundary (fun _ _ => [[1, 0, 0, 0], [-1, 0, 0, 0]]) [[1, 0, 0, 0]] 2
        [1, 0, 0, 0] 0 false 0 = some ([[1, 0, 0, 0], [-1, 0, 0, 0]], [true, false])
    ∧ (9/20 ≤ boolMean [true, false] ∧ boolMean [true, false] ≤ 11/20) :=
  ⟨by decide,
    find_reward_boundary_mean (fun _ _ => [[1, 0, 0, 0], [-1, 0, 0, 0]]) [[1, 0, 0, 0]] 2
      [1, 0, 0, 0] 0 false 0 [[1, 0, 0, 0], [-1, 0, 0, 0]] [true, false] (by decide)⟩

lemma frbLoop_nonterm : ∀ (fuel k : ℕ) (cov : ℚ) (normals : List (List ℚ)),
    normals.filter (fun n => decide ((0 : ℚ) < dot [1, 0, 0, 0] n)) = [] →
    findRewardBoundaryLoop (fun _ _ => [[1, 0, 0, 0]]) [1, 0, 0, 0] 0 fuel k cov normals
      = none
  | 0, k, cov, normals, hfil => by
    have hlab : frbLabels (fun _ _ => [[1, 0, 0, 0]]) [1, 0, 0, 0] 0 k cov normals
        = [true] := by
      rw [frbLabels, hfil]
      rfl
    rw [findRewardBoundaryLoop, hlab, if_pos (by left; decide)]
  | fuel + 1, k, cov, normals, hfil => by
    have hlab : frbLabels (fun _ _ => [[1, 0, 0, 0]]) [1, 0, 0, 0] 0 k cov normals
        = [true] := by
      rw [frbLabels, hfil]
      rfl
    rw [findRewardBoundaryLoop, hlab, if_pos (by left; decide), hfil]
    exact frbLoop_nonterm fuel (k + 1) _ [] rfl

lemma find_reward_boundary_nonterm_aux (fuel : ℕ) :
    find_reward_boundary (fun _ _ => [[1, 0, 0, 0]]) [[-1, 0, 0, 0]] 1 [1, 0, 0, 0] 0
      false fuel = none := by
  rw [find_reward_boundary, if_pos (by decide),
    frbLoop_nonterm fuel 0 1 [[-1, 0, 0, 0]] (by decide)]

/-- C2 counterexample: the claim that the covariance-rescaling loop of
`find_reward_boundary` terminates within a bounded number of steps for every
fixed seed and valid input is false.  On the valid input with true reward
`[1,0,0,0]`, `epsilon = 0`, and the single normal `[-1,0,0,0]` (which has
margin `-1`, so the restricted normal set is empty), every sampled reward is
labelled aligned, the mean alignment is constantly 1, and the loop runs
forever no matter how much fuel it is given — for any behaviour of the
Gaussian sampler, here one returning the unit reward `[1,0,0,0]`. -/
theorem find_reward_boundary_no_fuel_suffices :
    ¬ ∃ fuel, (find_reward_boundary (fun _ _ => [[1, 0, 0, 0]]) [[-1, 0, 0, 0]] 1
        [1, 0, 0, 0] 0 false fuel).isSome = true := by
  rintro ⟨fuel, h⟩
  rw [find_reward_boundary_nonterm_aux fuel] at h
  simp at h

/-- Byte serialization of a numpy array (`ndarray.tobytes()`): distinct byte
strings are distinct cache keys even when they print identically. -/
abbrev NpBytes := List ℕ

/-- State of a `TrajOptimizer`: the memoization cache, keyed by the byte
serializations of the reward vector and the stacked start-state pair, holding
the `(plan, loss)` results. -/
structure TrajOptimizer where
  cache : List ((NpBytes × NpBytes) × (List (List ℚ) × ℚ))

/-- Dictionary lookup `self.cache[reward.tobytes(), start_state.tobytes()]`
guarded by the `in self.cache.keys()` test. -/
def cacheLookup (cache : List ((NpBytes × NpBytes) × (List (List ℚ) × ℚ)))
    (key : NpBytes × NpBytes) : Option (List (List ℚ) × ℚ) :=
  match cache.find? (fun entry => decide (entry.1 = key)) with
  | some entry => some entry.2
  | none => none

/-- Embedding of `TrajOptimizer.make_opt_traj` restricted to its caching
behaviour: the multi-start gradient-descent search over the seed control bank
is external TensorFlow code, modelled by the oracle `optimize` as a function
of the reward and start-state bytes (the remaining inputs are fixed per
optimizer instance).  The returned `Bool` records whether the loss
computation ran (false on a cache hit, which returns before optimizing); on a
miss the result is stored only when `memorize` is set. -/
def make_opt_traj (optimize : NpBytes → NpBytes → List (List ℚ) × ℚ)
    (self : TrajOptimizer) (rewardBytes startStateBytes : NpBytes) (memorize : Bool) :
    (List (List ℚ) × ℚ) × TrajOptimizer × Bool :=
  match cacheLookup self.cache (rewardBytes, startStateBytes) with
  | some cached => (cached, self, false)
  | none =>
    (optimize rewardBytes startStateBytes,
      (if memorize = true then
        ⟨((rewardBytes, startStateBytes), optimize rewardBytes startStateBytes)
          :: self.cache⟩
       else self), true)

lemma cacheLookup_cons_self (c : List ((NpBytes × NpBytes) × (List (List ℚ) × ℚ)))
    (k : NpBytes × NpBytes) (v : List (List ℚ) × ℚ) :
    cacheLookup ((k, v) :: c) k = some v := by
  rw [cacheLookup, List.find?_cons_of_pos _ (by simp)]

lemma cacheLookup_cons_ne (c : List ((NpBytes × NpBytes) × (List (List ℚ) × ℚ)))
    (k k2 : NpBytes × NpBytes) (v : List (List ℚ) × ℚ) (h : k2 ≠ k) :
    cacheLookup ((k, v) :: c) k2 = cacheLookup c k2 := by
  rw [cacheLookup, cacheLookup, List.find?_cons_of_neg _ (by simp [Ne.symm h])]

/-- C9: the trajectory-optimizer cache is keyed by the exact byte
serializations.  After a call with `memorize=True`, a second call with
byte-identical arguments returns the identical cached `(plan, loss)` pair and
does not run the loss computation; keys with different byte content are
untouched by the store; and any key not in the cache runs the optimization. -/
theorem make_opt_traj_cache (optimize : NpBytes → NpBytes → List (List ℚ) × ℚ)
    (self : TrajOptimizer) (rewardBytes startStateBytes : NpBytes) :
    (make_opt_traj optimize
        (make_opt_traj optimize self rewardBytes startStateBytes true).2.1
        rewardBytes startStateBytes true
      = ((make_opt_traj optimize self rewardBytes startStateBytes true).1,
         (make_opt_traj optimize self rewardBytes startStateBytes true).2.1, false))
    ∧ (∀ rb sb : NpBytes, ¬ (rb = rewardBytes ∧ sb = startStateBytes) →
        cacheLookup (make_opt_traj optimize self rewardBytes startStateBytes true).2.1.cache
            (rb, sb)
          = cacheLookup self.cache (rb, sb))
    ∧ (∀ memorize : Bool,
        cacheLookup self.cache (rewardBytes, startStateBytes) = none →
        (make_opt_traj optimize self rewardBytes startStateBytes memorize).2.2 = true)
    := by
  refine ⟨?_, ?_, ?_⟩
  · cases h : cacheLookup self.cache (rewardBytes, startStateBytes) with
    | some v => simp [make_opt_traj, h]
    | none => simp [make_opt_traj, h, cacheLookup_cons_self]
  · intro rb sb hne
    cases h : cacheLookup self.cache (rewardBytes, startStateBytes) with
    | some v => simp [make_opt_traj, h]
    | none =>
      simp only [make_opt_traj, h]
      exact cacheLookup_cons_ne self.cache (rewardBytes, startStateBytes) (rb, sb) _
        (by simpa [Prod.ext_iff] using hne)
  · intro memorize h
    simp [make_opt_traj, h]

/-- Witness for C9 at concrete byte strings, with a fresh key, a repeated
key, and a distinct key. -/
theorem make_opt_traj_cache_witness :
    (make_opt_traj (fun _ _ => ([[1, 1]], 2)) ⟨[]⟩ [0] [1] true).2.2 = true
    ∧ make_opt_traj (fun _ _ => ([[1, 1]], 2))
        (make_opt_traj (fun _ _ => ([[1, 1]], 2)) ⟨[]⟩ [0] [1] true).2.1 [0] [1] true
      = ((make_opt_traj (fun _ _ => ([[1, 1]], 2)) ⟨[]⟩ [0] [1] true).1,
         (make_opt_traj (fun _ _ => ([[1, 1]], 2)) ⟨[]⟩ [0] [1] true).2.1, false)
    ∧ cacheLookup (make_opt_traj (fun _ _ => ([[1, 1]], 2)) ⟨[]⟩ [0] [1] true).2.1.cache
        ([2], [1])
      = cacheLookup (TrajOptimizer.mk []).cache ([2], [1]) :=
  ⟨(make_opt_traj_cache (fun _ _ => ([[1, 1]], 2)) ⟨[]⟩ [0] [1]).2.2 true (by rfl),
    (make_opt_traj_cache (fun _ _ => ([[1, 1]], 2)) ⟨[]⟩ [0] [1]).1,
    (make_opt_traj_cache (fun _ _ => ([[1, 1]], 2)) ⟨[]⟩ [0] [1]).2.1 [2] [1] (by decide)⟩

end
